import Mathlib

/-!
Shallow embedding of the ax206monitor display core: the RGB565 pixel codec,
the pseudo-SCSI command framing, the AX206 device operations, the USB
resource lifecycle, the rate-limited output handler, and the output fan-out
manager.  Go machine integers are modelled as Nat (unsigned) or Int (Go
int), with explicit truncation where the Go code performs a narrowing
conversion.  Endpoint I/O is modelled by an environment of outcomes, and
each framing operation additionally returns the trace of byte strings it
handed to the out endpoint and the buffer sizes it requested from the in
endpoint.
-/

/-- Go image.Rectangle: min/max corners, half-open. Coordinates are Go ints. -/
structure Rect where
  minX : Int
  minY : Int
  maxX : Int
  maxY : Int
  deriving DecidableEq

/-- Go Rectangle.Dx(). In Go this is an int; for the canonical rectangles the
code manipulates it is nonnegative, so we take the Nat truncation. -/
def Rect.dx (r : Rect) : Nat := (r.maxX - r.minX).toNat

/-- Go Rectangle.Dy(). -/
def Rect.dy (r : Rect) : Nat := (r.maxY - r.minY).toNat

/-- Go image.Point.In(r): membership test of the half-open rectangle. -/
def Rect.contains (r : Rect) (x y : Int) : Bool :=
  r.minX ≤ x && x < r.maxX && r.minY ≤ y && y < r.maxY

/-- A Go color.Color value: either the codec's own ColorRGB565 (a uint16
payload) or a generic color described by the 16-bit-per-channel quadruple its
RGBA() method returns. -/
inductive Color where
  | rgb565 (c : Nat)
  | rgba (r g b a : Nat)
  deriving DecidableEq

/-- The RGBA() method: ColorRGB565 expands each field to 16 bits by the
shift-and-or in the source; a generic color reports its stored quadruple. -/
def Color.RGBA : Color → Nat × Nat × Nat × Nat
  | .rgb565 c =>
      (((c >>> 11 &&& 0x1f) <<< 3) * 0x101,
       ((c >>> 5 &&& 0x3f) <<< 2) * 0x101,
       ((c &&& 0x1f) <<< 3) * 0x101,
       0xffff)
  | .rgba r g b a => (r, g, b, a)

/-- rgb565Model: the color.Model conversion function.  A ColorRGB565 passes
through; any other color is packed from its 16-bit RGBA channels exactly as
in the source: uint16((r and 0xF800) shr 0) or uint16((g and 0xFC00) shr 5)
or uint16((b and 0xFC00) shr 11).  We return the packed uint16 as a Nat. -/
def rgb565Model : Color → Nat
  | .rgb565 c => c
  | c =>
      let q := c.RGBA
      (q.1 &&& 0xF800) ||| ((q.2.1 &&& 0xFC00) >>> 5) ||| ((q.2.2.1 &&& 0xFC00) >>> 11)

/-- The pixel image: byte slice, stride (a Go int), bounds rectangle. -/
structure ImageRGB565 where
  Pix : List Nat
  Stride : Int
  Rect : Rect
  deriving DecidableEq

/-- PixOffset(x, y) = (y-Rect.Min.Y)*Stride + (x-Rect.Min.X)*2, a Go int. -/
def ImageRGB565.PixOffset (p : ImageRGB565) (x y : Int) : Int :=
  (y - p.Rect.minY) * p.Stride + (x - p.Rect.minX) * 2

/-- Set(x, y, c): out-of-rectangle writes are ignored; otherwise the color is
converted through rgb565Model and stored high byte first, low byte second.
The uint8 conversions are mod-256 truncations.  (Go indexes the slice
directly and would panic on an image whose Pix is shorter than its rectangle
requires; List.set at an out-of-range index is a no-op instead, which only
differs on inputs where the Go program crashes.) -/
def ImageRGB565.Set (p : ImageRGB565) (x y : Int) (c : Color) : ImageRGB565 :=
  if p.Rect.contains x y then
    let i := (p.PixOffset x y).toNat
    let c1 := rgb565Model c
    { p with Pix := (p.Pix.set i ((c1 >>> 8) % 256)).set (i + 1) (c1 % 256) }
  else p

/-- Go copy(dest[off:], src): overwrites dest starting at off with as many
elements of src as fit, leaving dest's length unchanged. -/
def listCopyAt (dest : List Nat) (off : Nat) (src : List Nat) : List Nat :=
  dest.take off ++ src.take (dest.length - off) ++ dest.drop (off + src.length)

/-- scsiCmdPrepare(cmd, blockLen, out): the fixed 31-byte envelope template
with blockLen serialized little-endian by Go byte conversions (mod-256
truncations of right shifts), the direction flag, LUN 0, the CDB length byte
uint8(len(cmd)), and copy(buf[15:], cmd) overlaying the CDB area. -/
def scsiCmdPrepare (cmd : List Nat) (blockLen : Nat) (out : Bool) : List Nat :=
  let bmCBWFlags : Nat := if out then 0x00 else 0x80
  let buf : List Nat :=
    [0x55, 0x53, 0x42, 0x43,
     0xde, 0xad, 0xbe, 0xef,
     blockLen % 256, (blockLen >>> 8) % 256, (blockLen >>> 16) % 256, (blockLen >>> 24) % 256,
     bmCBWFlags,
     0x00,
     cmd.length % 256,
     0xcd, 0x00, 0x00, 0x00,
     0x00, 0x06, 0x11, 0xf8,
     0x70, 0x00, 0x40, 0x00,
     0x00, 0x00, 0x00, 0x00]
  listCopyAt buf 15 cmd

/-- A Go image.Image: bounds plus the At color lookup. -/
structure SourceImage where
  bounds : Rect
  At : Int → Int → Color

/-- PixRect: assembles the wire payload.  The buffer is Dx*Dy*2 bytes; for
each of the Dy rows the source row slice Pix[start : start+dxb] (modelled
total as drop/take; Go panics when the slice is out of range) is copied to
destination offset py, where py starts at 0 and advances by dxb per row, so
py = i*dxb at row i. -/
def ImageRGB565.PixRect (p : ImageRGB565) : List Nat :=
  let r := p.Rect
  let dxb := r.dx * 2
  (List.range r.dy).foldl
    (fun data i =>
      listCopyAt data (i * dxb)
        ((p.Pix.drop (p.PixOffset r.minX (r.minY + (i : Int))).toNat).take dxb))
    (List.replicate (r.dx * r.dy * 2) 0)

/-- NewRGB565Image: a fresh w*h*2 zero buffer with stride w*2 and rectangle
(0,0,w,h), filled by Set(x-Min.X, y-Min.Y, src.At(x,y)) over the source
bounds; we index rows and columns by their offsets i = y-Min.Y, j = x-Min.X. -/
def NewRGB565Image (src : SourceImage) : ImageRGB565 :=
  (List.range src.bounds.dy).foldl
    (fun img i =>
      (List.range src.bounds.dx).foldl
        (fun img j =>
          img.Set (j : Int) (i : Int)
            (src.At (src.bounds.minX + (j : Int)) (src.bounds.minY + (i : Int))))
        img)
    ⟨List.replicate (src.bounds.dx * src.bounds.dy * 2) 0, (src.bounds.dx : Int) * 2,
      ⟨0, 0, (src.bounds.dx : Int), (src.bounds.dy : Int)⟩⟩

/-- The behavior of the USB endpoints during one framing operation: the
outcome of the k-th write to the out endpoint (none = success) and the raw
bytes delivered by the k-th read from the in endpoint (or an I/O error). -/
structure USBEnv where
  writeErr : Nat → Option String
  readRaw : Nat → Except String (List Nat)

/-- scsiGetAck: reads the 13-byte status block from the in endpoint; n is the
number of bytes delivered (at most the 13-byte buffer).  The block is valid
iff n is at least 4 and the first 4 bytes of the buffer spell USBS
(0x55 0x53 0x42 0x53); otherwise, and on an endpoint read error, a non-nil
error is returned. -/
def scsiGetAck (reply : Except String (List Nat)) : Option String :=
  match reply with
  | .error e => some ("ACK read failed: " ++ e)
  | .ok raw =>
      let n := min raw.length 13
      let buf := listCopyAt (List.replicate 13 0) 0 raw
      if n < 4 ∨ ¬ buf.take 4 = [0x55, 0x53, 0x42, 0x53] then some "Got invalid reply"
      else none

/-- Result of scsiWrite: the error, the byte strings handed to the out
endpoint, and the buffer sizes requested from the in endpoint. -/
structure WriteResult where
  err : Option String
  written : List (List Nat)
  readRequests : List Nat
  deriving DecidableEq

/-- Go len(data) with data possibly nil. -/
def dataLen : Option (List Nat) → Nat
  | none => 0
  | some d => d.length

/-- scsiWrite(cmd, data): writes the prepared envelope (blockLen = len(data),
direction host-to-device), then the payload when data is non-nil, then
requires a valid status block. -/
def scsiWrite (env : USBEnv) (cmd : List Nat) (data : Option (List Nat)) : WriteResult :=
  let envl := scsiCmdPrepare cmd (dataLen data) true
  match env.writeErr 0 with
  | some e => ⟨some ("command write failed: " ++ e), [envl], []⟩
  | none =>
      match data with
      | none => ⟨scsiGetAck (env.readRaw 0), [envl], [13]⟩
      | some d =>
          match env.writeErr 1 with
          | some e => ⟨some ("data write failed: " ++ e), [envl, d], []⟩
          | none => ⟨scsiGetAck (env.readRaw 0), [envl, d], [13]⟩

/-- Result of scsiRead: the returned bytes (none when Go returns a nil
slice), the error, and the endpoint traces. -/
structure ReadResult where
  data : Option (List Nat)
  err : Option String
  written : List (List Nat)
  readRequests : List Nat
  deriving DecidableEq

/-- scsiRead(cmd, blockLen): writes the prepared envelope (direction
device-to-host, length field blockLen), reads into a blockLen-byte buffer
(the device delivers n = min(len(raw), blockLen) bytes, and buf[:n] is
raw.take blockLen), then requires a valid status block; on an invalid status
block the already-read data is still returned alongside the error. -/
def scsiRead (env : USBEnv) (cmd : List Nat) (blockLen : Nat) : ReadResult :=
  let envl := scsiCmdPrepare cmd blockLen false
  match env.writeErr 0 with
  | some e => ⟨none, some ("command write failed: " ++ e), [envl], []⟩
  | none =>
      match env.readRaw 0 with
      | .error e => ⟨none, some ("data read failed: " ++ e), [envl], [blockLen]⟩
      | .ok raw =>
          match scsiGetAck (env.readRaw 1) with
          | some e => ⟨some (raw.take blockLen), some e, [envl], [blockLen, 13]⟩
          | none => ⟨some (raw.take blockLen), none, [envl], [blockLen, 13]⟩

/-- Go byte(v) for a Go int v: two's-complement truncation, i.e. v mod 256. -/
def goByte (n : Int) : Nat := (n % 256).toNat

/-- Go v >> 8 on a Go int: arithmetic shift, i.e. flooring division by 256. -/
def goShr8 (n : Int) : Int := Int.fdiv n 256

/-- The CDB built by Blit for rectangle r: sub-opcode 0x12 then x0, y0,
x1-1, y1-1 as little-endian 16-bit fields made of Go byte conversions. -/
def blitCmd (r : Rect) : List Nat :=
  [0xcd, 0, 0, 0,
   0, 6, 0x12,
   goByte r.minX, goByte (goShr8 r.minX),
   goByte r.minY, goByte (goShr8 r.minY),
   goByte (r.maxX - 1), goByte (goShr8 (r.maxX - 1)),
   goByte (r.maxY - 1), goByte (goShr8 (r.maxY - 1)),
   0]

/-- Blit(img): nil check, then scsiWrite of the blit CDB with the PixRect
payload. -/
def Blit (env : USBEnv) (img : Option ImageRGB565) : WriteResult :=
  match img with
  | none => ⟨some "image is nil", [], []⟩
  | some p => scsiWrite env (blitCmd p.Rect) (some p.PixRect)

/-- Decodes the little-endian 16-bit field at positions k, k+1 of a CDB. -/
def dec16 (l : List Nat) (k : Nat) : Nat :=
  (l.get? k).getD 0 + 256 * (l.get? (k + 1)).getD 0

/-- The OutputHandler interface, reduced to its Output method: a sink maps a
frame to an optional error (none = success). -/
def OutputHandler := SourceImage → Option String

/-- The output fan-out manager: the list of registered sinks. -/
structure OutputManager where
  handlers : List OutputHandler

/-- NewOutputManager(): empty handler list. -/
def NewOutputManager : OutputManager := ⟨[]⟩

/-- AddHandler: appends a sink. -/
def OutputManager.AddHandler (om : OutputManager) (h : OutputHandler) : OutputManager :=
  ⟨om.handlers ++ [h]⟩

/-- One loop iteration of OutputManager.Output: the accumulator is
(lastErr, hasSuccess); a failing sink overwrites lastErr, a succeeding sink
sets hasSuccess. -/
def aggregateStep (acc : Option String × Bool) (r : Option String) : Option String × Bool :=
  match r with
  | some e => (some e, acc.2)
  | none => (acc.1, true)

/-- OutputManager.Output: calls every registered sink in order with the
frame, folding (lastErr, hasSuccess); returns lastErr only when no sink
succeeded and some sink failed, and nil otherwise. -/
def OutputManager.Output (om : OutputManager) (img : SourceImage) : Option String :=
  let acc := om.handlers.foldl
    (fun acc handler => aggregateStep acc (handler img))
    ((none : Option String), false)
  if ¬ acc.2 ∧ acc.1 ≠ none then acc.1 else none

/-- Outcome of one tryConnect attempt: NewAX206USB fails, the brightness
sanity command fails, or the connection succeeds. -/
inductive ConnectOutcome where
  | newFail
  | testFail
  | ok
  deriving DecidableEq

/-- The two warning messages tryConnect can emit: the rate-limited
device-not-available warning and the device-test-failed warning. -/
inductive WarnKind where
  | notAvailable
  | testFailed
  deriving DecidableEq

/-- One tryConnect call at time now (seconds) with the handler's lastError
timestamp: on a NewAX206USB failure the warning is emitted only when more
than 10 seconds have passed since lastError, which is then updated to now;
a brightness-test failure is logged unconditionally and does not touch
lastError; success logs no warning.  Returns the new lastError and the
warnings emitted.  (Go time is monotone; a negative duration fails the
greater-than test exactly like truncated Nat subtraction.) -/
def tryConnectStep (lastError now : Nat) :
    ConnectOutcome → Nat × List (Nat × WarnKind)
  | .newFail =>
      if 10 < now - lastError then (now, [(now, WarnKind.notAvailable)])
      else (lastError, [])
  | .testFail => (lastError, [(now, WarnKind.testFailed)])
  | .ok => (lastError, [])

/-- Runs a sequence of tryConnect attempts (time, outcome), threading the
lastError timestamp, and collects all warnings in order. -/
def runAttempts (lastError : Nat) : List (Nat × ConnectOutcome) → List (Nat × WarnKind)
  | [] => []
  | (t, o) :: rest =>
      ((tryConnectStep lastError t o).2) ++ runAttempts (tryConnectStep lastError t o).1 rest

def isNotAvailableWarn : Nat × WarnKind → Bool
  | (_, WarnKind.notAvailable) => true
  | _ => false

def isTestFailedWarn : Nat × WarnKind → Bool
  | (_, WarnKind.testFailed) => true
  | _ => false

def isTestFailAttempt : Nat × ConnectOutcome → Bool
  | (_, ConnectOutcome.testFail) => true
  | _ => false

/-- The emission times of the device-not-available warnings. -/
def constructWarnTimes (ws : List (Nat × WarnKind)) : List Nat :=
  (ws.filter isNotAvailableWarn).map Prod.fst

/-- The USB connection's resource flags: which of context, device handle,
configuration and interface were successfully acquired (Go fields hasCtx,
hasDevice, hasConfig, hasIntf of the AX206USB struct). -/
structure AX206USB where
  hasCtx : Bool
  hasDevice : Bool
  hasConfig : Bool
  hasIntf : Bool
  deriving DecidableEq

inductive Resource where
  | ctx
  | device
  | config
  | intf
  deriving DecidableEq

/-- Close(): four guarded release steps in the fixed order interface,
configuration, device, context; each releases only when its flag is set and
clears the flag.  Returns the final state and the trace of released
resources in release order. -/
def AX206USB.Close (s : AX206USB) : AX206USB × List Resource :=
  let r1 := if s.hasIntf then ({ s with hasIntf := false }, [Resource.intf])
            else (s, [])
  let r2 := if r1.1.hasConfig then ({ r1.1 with hasConfig := false }, r1.2 ++ [Resource.config])
            else (r1.1, r1.2)
  let r3 := if r2.1.hasDevice then ({ r2.1 with hasDevice := false }, r2.2 ++ [Resource.device])
            else (r2.1, r2.2)
  if r3.1.hasCtx then ({ r3.1 with hasCtx := false }, r3.2 ++ [Resource.ctx])
  else (r3.1, r3.2)

/-- The resources currently recorded as acquired, in acquisition order
(NewAX206USB acquires context, then device, then configuration, then
interface). -/
def AX206USB.acquired (s : AX206USB) : List Resource :=
  (if s.hasCtx then [Resource.ctx] else []) ++
  (if s.hasDevice then [Resource.device] else []) ++
  (if s.hasConfig then [Resource.config] else []) ++
  (if s.hasIntf then [Resource.intf] else [])

/-- The flag states NewAX206USB can be in when a failing construction step
calls Close: context acquired but the device open failed; device acquired
but the configuration failed; configuration acquired but the interface
claim failed; everything acquired but an endpoint lookup failed. -/
inductive ConnectStep where
  | openDeviceFail
  | configFail
  | interfaceFail
  | outEndpointFail
  | inEndpointFail
  deriving DecidableEq

def stateAtFailure : ConnectStep → AX206USB
  | .openDeviceFail => ⟨true, false, false, false⟩
  | .configFail => ⟨true, true, false, false⟩
  | .interfaceFail => ⟨true, true, true, false⟩
  | .outEndpointFail => ⟨true, true, true, true⟩
  | .inEndpointFail => ⟨true, true, true, true⟩

set_option maxRecDepth 10000

theorem listCopyAt_length (dest : List Nat) (off : Nat) (src : List Nat) :
    (listCopyAt dest off src).length = dest.length := by
  simp [listCopyAt]
  omega

-- Per-channel facts about the packing of an 8-bit channel expanded to 16 bits
-- (a 16-bit channel value produced by color.RGBA{...}.RGBA() is v*0x101).

theorem red_channel_pack : ∀ r : Nat, r < 256 →
    (r * 257) &&& 0xF800 = (r >>> 3) <<< 11 := by decide

theorem green_channel_pack : ∀ g : Nat, g < 256 →
    ((g * 257) &&& 0xFC00) >>> 5 = (g >>> 2) <<< 5 := by decide

theorem blue_channel_pack : ∀ b : Nat, b < 256 →
    ((b * 257) &&& 0xFC00) >>> 11 = b >>> 3 := by decide

/-- C2: the prepared envelope is always exactly 31 bytes; for a 16-byte CDB
beginning with opcode 0xcd the envelope carries the USBC signature in bytes
0-3, the fixed tag in bytes 4-7, blockLen little-endian in bytes 8-11
(decoding back to blockLen whenever it fits in 32 bits), the direction flag
0x80 for device-to-host and 0x00 for host-to-device in byte 12, LUN 0 in
byte 13, the CDB length in byte 14, and the CDB itself in bytes 15-30,
starting with 0xcd. -/
theorem c2_envelope_layout (cmd : List Nat) (blockLen : Nat) (out : Bool)
    (hlen : cmd.length = 16) (hcd : cmd.head? = some 0xcd)
    (hbl : blockLen < 4294967296) :
    (scsiCmdPrepare cmd blockLen out).length = 31 ∧
    (scsiCmdPrepare cmd blockLen out).take 4 = [0x55, 0x53, 0x42, 0x43] ∧
    ((scsiCmdPrepare cmd blockLen out).drop 4).take 4 = [0xde, 0xad, 0xbe, 0xef] ∧
    ((scsiCmdPrepare cmd blockLen out).get? 8).getD 0
      + 256 * ((scsiCmdPrepare cmd blockLen out).get? 9).getD 0
      + 65536 * ((scsiCmdPrepare cmd blockLen out).get? 10).getD 0
      + 16777216 * ((scsiCmdPrepare cmd blockLen out).get? 11).getD 0 = blockLen ∧
    (scsiCmdPrepare cmd blockLen out).get? 12 = some (if out then 0x00 else 0x80) ∧
    (scsiCmdPrepare cmd blockLen out).get? 13 = some 0 ∧
    (scsiCmdPrepare cmd blockLen out).get? 14 = some cmd.length ∧
    (scsiCmdPrepare cmd blockLen out).drop 15 = cmd ∧
    (scsiCmdPrepare cmd blockLen out).get? 15 = some 0xcd := by
  obtain ⟨c0, cs, rfl⟩ : ∃ c0 cs, cmd = c0 :: cs := by
    cases cmd with
    | nil => simp at hcd
    | cons c0 cs => exact ⟨c0, cs, rfl⟩
  have hc0 : c0 = 0xcd := by simpa using hcd
  subst hc0
  simp only [List.length_cons] at hlen
  have hcs : cs.length = 15 := by omega
  refine ⟨?_, ?_, ?_, ?_, ?_, ?_, ?_, ?_, ?_⟩
  · simp only [scsiCmdPrepare]
    rw [listCopyAt_length]
    rfl
  · rfl
  · rfl
  · show blockLen % 256 + 256 * ((blockLen >>> 8) % 256)
        + 65536 * ((blockLen >>> 16) % 256) + 16777216 * ((blockLen >>> 24) % 256) = blockLen
    simp only [Nat.shiftRight_eq_div_pow]
    omega
  · rfl
  · rfl
  · show some (((cs.length + 1) % 256 : Nat)) = some (cs.length + 1)
    rw [hcs]
  · show List.drop 15 (listCopyAt _ 15 (0xcd :: cs)) = 0xcd :: cs
    simp only [listCopyAt]
    show List.drop 15
        ([0x55, 0x53, 0x42, 0x43, 0xde, 0xad, 0xbe, 0xef,
          blockLen % 256, (blockLen >>> 8) % 256, (blockLen >>> 16) % 256,
          (blockLen >>> 24) % 256, if out then 0x00 else 0x80, 0x00,
          (cs.length + 1) % 256] ++ (0xcd :: cs).take 16 ++ _) = 0xcd :: cs
    rw [List.drop_append_of_le_length (by simp)]
    simp [hcs, List.take_of_length_le, List.drop_eq_nil_of_le]
  · show (listCopyAt _ 15 (0xcd :: cs)).get? 15 = some 0xcd
    simp only [listCopyAt]
    rfl

theorem c2_envelope_layout_witness :
    ([0xcd, 0, 0, 0, 0, 6, 0x01, 1, 0, 7, 0, 0, 0, 0, 0, 0] : List Nat).length = 16 ∧
    ([0xcd, 0, 0, 0, 0, 6, 0x01, 1, 0, 7, 0, 0, 0, 0, 0, 0] : List Nat).head? = some 0xcd ∧
    (0 : Nat) < 4294967296 ∧
    (scsiCmdPrepare [0xcd, 0, 0, 0, 0, 6, 0x01, 1, 0, 7, 0, 0, 0, 0, 0, 0] 0 true).length = 31 :=
  ⟨by decide, by decide, by decide,
    (c2_envelope_layout [0xcd, 0, 0, 0, 0, 6, 0x01, 1, 0, 7, 0, 0, 0, 0, 0, 0] 0 true
      (by decide) (by decide) (by decide)).1⟩

theorem scsiGetAck_ok_iff (raw : List Nat) :
    scsiGetAck (Except.ok raw) = none ↔
      4 ≤ raw.length ∧ raw.take 4 = [0x55, 0x53, 0x42, 0x53] := by
  by_cases h4 : 4 ≤ raw.length
  · have hbuf : (listCopyAt (List.replicate 13 0) 0 raw).take 4 = raw.take 4 := by
      simp only [listCopyAt, List.take_zero, List.nil_append, List.length_replicate,
        Nat.sub_zero, Nat.zero_add]
      rw [List.take_append_eq_append_take, List.take_take]
      have h3 : 4 - (raw.take 13).length = 0 := by
        rw [List.length_take]; omega
      rw [h3]
      simp
    simp only [scsiGetAck, hbuf]
    have hn : ¬ (min raw.length 13 < 4) := by omega
    by_cases heq : raw.take 4 = [0x55, 0x53, 0x42, 0x53]
    · simp [hn, heq, h4]
    · simp [hn, heq]
  · have hn : min raw.length 13 < 4 := by omega
    simp [scsiGetAck, hn, h4]

/-- C3: a status block is accepted iff the endpoint read succeeded with at
least 4 bytes whose first 4 equal USBS; scsiWrite succeeds iff its endpoint
writes succeeded and its status block (read 0) is valid, and scsiRead
succeeds iff its command write and data read succeeded and its status block
(read 1) is valid — so an invalid or absent status block (an all-zero
block, a short read, or an I/O error) always produces a non-nil error,
never silent success. -/
theorem c3_ack_validation :
    (∀ reply : Except String (List Nat),
      scsiGetAck reply = none ↔
        ∃ raw, reply = Except.ok raw ∧ 4 ≤ raw.length ∧
          raw.take 4 = [0x55, 0x53, 0x42, 0x53]) ∧
    (∀ (env : USBEnv) (cmd : List Nat) (data : Option (List Nat)),
      (scsiWrite env cmd data).err = none ↔
        env.writeErr 0 = none ∧ (∀ d, data = some d → env.writeErr 1 = none) ∧
          scsiGetAck (env.readRaw 0) = none) ∧
    (∀ (env : USBEnv) (cmd : List Nat) (blockLen : Nat),
      (scsiRead env cmd blockLen).err = none ↔
        env.writeErr 0 = none ∧ (∃ raw, env.readRaw 0 = Except.ok raw) ∧
          scsiGetAck (env.readRaw 1) = none) := by
  refine ⟨?_, ?_, ?_⟩
  · intro reply
    cases reply with
    | error e => simp [scsiGetAck]
    | ok raw => simp [scsiGetAck_ok_iff]
  · intro env cmd data
    cases hw0 : env.writeErr 0 with
    | some e => simp [scsiWrite, hw0]
    | none =>
        cases data with
        | none => simp [scsiWrite, hw0]
        | some d =>
            cases hw1 : env.writeErr 1 with
            | some e => simp [scsiWrite, hw0, hw1]
            | none => simp [scsiWrite, hw0, hw1]
  · intro env cmd blockLen
    cases hw0 : env.writeErr 0 with
    | some e => simp [scsiRead, hw0]
    | none =>
        cases hr : env.readRaw 0 with
        | error e => simp [scsiRead, hw0, hr]
        | ok raw =>
            cases ha : scsiGetAck (env.readRaw 1) with
            | some e => simp [scsiRead, hw0, hr, ha]
            | none => simp [scsiRead, hw0, hr, ha]

/-- C7: under a successful command write and data read, scsiRead writes
exactly the envelope prepared with direction device-to-host (byte 12 is
0x80) and little-endian length field blockLen, requests exactly blockLen
bytes from the in endpoint, returns the bytes the endpoint delivered
(truncated to the requested blockLen), and sets its error to the status
check of the follow-up 13-byte ACK read — and when that status check fails
the already-read data is still returned alongside the non-nil error. -/
theorem c7_scsi_read (env : USBEnv) (cmd : List Nat) (blockLen : Nat) (raw : List Nat)
    (hw : env.writeErr 0 = none) (hr : env.readRaw 0 = Except.ok raw)
    (hbl : blockLen < 4294967296) :
    (scsiRead env cmd blockLen).written = [scsiCmdPrepare cmd blockLen false] ∧
    (scsiCmdPrepare cmd blockLen false).get? 12 = some 0x80 ∧
    ((scsiCmdPrepare cmd blockLen false).get? 8).getD 0
      + 256 * ((scsiCmdPrepare cmd blockLen false).get? 9).getD 0
      + 65536 * ((scsiCmdPrepare cmd blockLen false).get? 10).getD 0
      + 16777216 * ((scsiCmdPrepare cmd blockLen false).get? 11).getD 0 = blockLen ∧
    (scsiRead env cmd blockLen).readRequests = [blockLen, 13] ∧
    (scsiRead env cmd blockLen).data = some (raw.take blockLen) ∧
    (scsiRead env cmd blockLen).err = scsiGetAck (env.readRaw 1) ∧
    (scsiGetAck (env.readRaw 1) ≠ none →
      (scsiRead env cmd blockLen).data = some (raw.take blockLen) ∧
      (scsiRead env cmd blockLen).err ≠ none) := by
  have hmain : scsiRead env cmd blockLen =
      ⟨some (raw.take blockLen), scsiGetAck (env.readRaw 1),
        [scsiCmdPrepare cmd blockLen false], [blockLen, 13]⟩ := by
    simp only [scsiRead, hw, hr]
    cases ha : scsiGetAck (env.readRaw 1) <;> simp [ha]
  rw [hmain]
  refine ⟨rfl, rfl, ?_, rfl, rfl, rfl, ?_⟩
  · show blockLen % 256 + 256 * ((blockLen >>> 8) % 256)
        + 65536 * ((blockLen >>> 16) % 256) + 16777216 * ((blockLen >>> 24) % 256) = blockLen
    simp only [Nat.shiftRight_eq_div_pow]
    omega
  · intro hne
    exact ⟨rfl, hne⟩

theorem c7_scsi_read_witness :
    (⟨fun _ => none, fun k => if k = 0 then Except.ok [9, 8, 7] else Except.error "gone"⟩
        : USBEnv).writeErr 0 = none ∧
    (⟨fun _ => none, fun k => if k = 0 then Except.ok [9, 8, 7] else Except.error "gone"⟩
        : USBEnv).readRaw 0 = Except.ok [9, 8, 7] ∧
    (2 : Nat) < 4294967296 ∧
    (scsiRead
        ⟨fun _ => none, fun k => if k = 0 then Except.ok [9, 8, 7] else Except.error "gone"⟩
        [0xcd, 0, 0, 0, 0, 2, 0, 0, 0, 0, 0, 0, 0, 0, 0, 0] 2).data
      = some (([9, 8, 7] : List Nat).take 2) :=
  ⟨rfl, rfl, by decide,
    (c7_scsi_read
      ⟨fun _ => none, fun k => if k = 0 then Except.ok [9, 8, 7] else Except.error "gone"⟩
      [0xcd, 0, 0, 0, 0, 2, 0, 0, 0, 0, 0, 0, 0, 0, 0, 0] 2 [9, 8, 7]
      rfl rfl (by decide)).2.2.2.2.1⟩

/-- C1: converting a source pixel with 8-bit channels (r,g,b) — whose Go
RGBA() channels are r*257, g*257, b*257 — through rgb565Model yields
((r shr 3) shl 11) or ((g shr 2) shl 5) or (b shr 3); Set stores the packed
value big-endian (high byte at the pixel offset, low byte after it); and the
five canonical colors map to 0xF800, 0x07E0, 0x001F, 0xFFFF, 0x0000. -/
theorem c1_rgb565_conversion (r g b : Nat) (p : ImageRGB565) (x y : Int)
    (hr : r < 256) (hg : g < 256) (hb : b < 256)
    (hin : p.Rect.contains x y = true) :
    rgb565Model (Color.rgba (r * 257) (g * 257) (b * 257) 0xffff)
      = ((r >>> 3) <<< 11) ||| ((g >>> 2) <<< 5) ||| (b >>> 3) ∧
    (p.Set x y (Color.rgba (r * 257) (g * 257) (b * 257) 0xffff)).Pix
      = (p.Pix.set (p.PixOffset x y).toNat
          ((rgb565Model (Color.rgba (r * 257) (g * 257) (b * 257) 0xffff) >>> 8) % 256)).set
          ((p.PixOffset x y).toNat + 1)
          (rgb565Model (Color.rgba (r * 257) (g * 257) (b * 257) 0xffff) % 256) ∧
    rgb565Model (Color.rgba (255 * 257) 0 0 0xffff) = 0xF800 ∧
    rgb565Model (Color.rgba 0 (255 * 257) 0 0xffff) = 0x07E0 ∧
    rgb565Model (Color.rgba 0 0 (255 * 257) 0xffff) = 0x001F ∧
    rgb565Model (Color.rgba (255 * 257) (255 * 257) (255 * 257) 0xffff) = 0xFFFF ∧
    rgb565Model (Color.rgba 0 0 0 0xffff) = 0x0000 := by
  refine ⟨?_, ?_, by decide, by decide, by decide, by decide, by decide⟩
  · show ((r * 257) &&& 0xF800) ||| (((g * 257) &&& 0xFC00) >>> 5) |||
        (((b * 257) &&& 0xFC00) >>> 11)
        = ((r >>> 3) <<< 11) ||| ((g >>> 2) <<< 5) ||| (b >>> 3)
    rw [red_channel_pack r hr, green_channel_pack g hg, blue_channel_pack b hb]
  · simp [ImageRGB565.Set, hin]

theorem c1_rgb565_conversion_witness :
    rgb565Model (Color.rgba (255 * 257) (0 * 257) (0 * 257) 0xffff)
      = ((255 >>> 3) <<< 11) ||| ((0 >>> 2) <<< 5) ||| (0 >>> 3) ∧
    ((⟨[7, 7], 2, ⟨0, 0, 1, 1⟩⟩ : ImageRGB565).Set 0 0
        (Color.rgba (255 * 257) (0 * 257) (0 * 257) 0xffff)).Pix
      = (([7, 7].set ((⟨[7, 7], 2, ⟨0, 0, 1, 1⟩⟩ : ImageRGB565).PixOffset 0 0).toNat
          ((rgb565Model (Color.rgba (255 * 257) (0 * 257) (0 * 257) 0xffff) >>> 8) % 256)).set
          (((⟨[7, 7], 2, ⟨0, 0, 1, 1⟩⟩ : ImageRGB565).PixOffset 0 0).toNat + 1)
          (rgb565Model (Color.rgba (255 * 257) (0 * 257) (0 * 257) 0xffff) % 256)) ∧
    rgb565Model (Color.rgba (255 * 257) 0 0 0xffff) = 0xF800 ∧
    rgb565Model (Color.rgba 0 (255 * 257) 0 0xffff) = 0x07E0 ∧
    rgb565Model (Color.rgba 0 0 (255 * 257) 0xffff) = 0x001F ∧
    rgb565Model (Color.rgba (255 * 257) (255 * 257) (255 * 257) 0xffff) = 0xFFFF ∧
    rgb565Model (Color.rgba 0 0 0 0xffff) = 0x0000 :=
  c1_rgb565_conversion 255 0 0 ⟨[7, 7], 2, ⟨0, 0, 1, 1⟩⟩ 0 0
    (by decide) (by decide) (by decide) (by decide)

theorem goByte_le16_decode (n : Nat) (h : n < 65536) :
    goByte (n : Int) + 256 * goByte (goShr8 (n : Int)) = n := by
  show ((n : Int) % 256).toNat + 256 * ((Int.fdiv (n : Int) 256 % 256)).toNat = n
  have h1 : ((n : Int) % 256).toNat = n % 256 := rfl
  have h2 : (Int.fdiv (n : Int) 256 % 256).toNat = (n / 256) % 256 := by
    rw [Int.fdiv_eq_ediv _ (by decide)]
    rfl
  rw [h1, h2]
  omega

/-- C4: for a half-open rectangle [x0,y0,x1,y1) with in-range coordinates,
the Blit CDB carries x0 and y0 verbatim in its little-endian 16-bit fields
at offsets 7 and 9, and the inclusive end corner (x1-1, y1-1) at offsets 11
and 13; for the rectangle [0,0,480,320) the end fields decode to (479, 319). -/
theorem c4_blit_rectangle (x0 y0 x1 y1 : Nat)
    (hx0 : x0 < 65536) (hy0 : y0 < 65536)
    (hx1 : 1 ≤ x1) (hx1u : x1 ≤ 65536) (hy1 : 1 ≤ y1) (hy1u : y1 ≤ 65536) :
    dec16 (blitCmd ⟨(x0 : Int), (y0 : Int), (x1 : Int), (y1 : Int)⟩) 7 = x0 ∧
    dec16 (blitCmd ⟨(x0 : Int), (y0 : Int), (x1 : Int), (y1 : Int)⟩) 9 = y0 ∧
    dec16 (blitCmd ⟨(x0 : Int), (y0 : Int), (x1 : Int), (y1 : Int)⟩) 11 = x1 - 1 ∧
    dec16 (blitCmd ⟨(x0 : Int), (y0 : Int), (x1 : Int), (y1 : Int)⟩) 13 = y1 - 1 ∧
    dec16 (blitCmd ⟨0, 0, 480, 320⟩) 11 = 479 ∧
    dec16 (blitCmd ⟨0, 0, 480, 320⟩) 13 = 319 := by
  have hsx : ((x1 : Int) - 1) = ((x1 - 1 : Nat) : Int) := by
    rw [Nat.cast_sub hx1]; rfl
  have hsy : ((y1 : Int) - 1) = ((y1 - 1 : Nat) : Int) := by
    rw [Nat.cast_sub hy1]; rfl
  refine ⟨?_, ?_, ?_, ?_, by decide, by decide⟩
  · exact goByte_le16_decode x0 hx0
  · exact goByte_le16_decode y0 hy0
  · show goByte ((x1 : Int) - 1) + 256 * goByte (goShr8 ((x1 : Int) - 1)) = x1 - 1
    rw [hsx]
    exact goByte_le16_decode (x1 - 1) (by omega)
  · show goByte ((y1 : Int) - 1) + 256 * goByte (goShr8 ((y1 : Int) - 1)) = y1 - 1
    rw [hsy]
    exact goByte_le16_decode (y1 - 1) (by omega)

theorem c4_blit_rectangle_witness :
    (0 : Nat) < 65536 ∧ (1 : Nat) ≤ 480 ∧
    dec16 (blitCmd ⟨(0 : Nat), (0 : Nat), (480 : Nat), (320 : Nat)⟩) 11 = 479 :=
  ⟨by decide, by decide,
    (c4_blit_rectangle 0 0 480 320 (by decide) (by decide) (by decide) (by decide)
      (by decide) (by decide)).2.2.1⟩

theorem Set_shape (p : ImageRGB565) (x y : Int) (c : Color) :
    (p.Set x y c).Pix.length = p.Pix.length ∧ (p.Set x y c).Stride = p.Stride ∧
      (p.Set x y c).Rect = p.Rect := by
  unfold ImageRGB565.Set
  split
  · simp
  · exact ⟨rfl, rfl, rfl⟩

theorem foldl_shape {α : Type} (f : ImageRGB565 → α → ImageRGB565)
    (hf : ∀ p a, (f p a).Pix.length = p.Pix.length ∧ (f p a).Stride = p.Stride ∧
      (f p a).Rect = p.Rect) :
    ∀ (l : List α) (p : ImageRGB565),
      (l.foldl f p).Pix.length = p.Pix.length ∧ (l.foldl f p).Stride = p.Stride ∧
        (l.foldl f p).Rect = p.Rect
  | [], p => ⟨rfl, rfl, rfl⟩
  | a :: l, p => by
      have h1 := hf p a
      have h2 := foldl_shape f hf l (f p a)
      simp only [List.foldl_cons]
      exact ⟨h2.1.trans h1.1, h2.2.1.trans h1.2.1, h2.2.2.trans h1.2.2⟩

theorem NewRGB565Image_shape (src : SourceImage) :
    (NewRGB565Image src).Pix.length = src.bounds.dx * src.bounds.dy * 2 ∧
    (NewRGB565Image src).Stride = (src.bounds.dx : Int) * 2 ∧
    (NewRGB565Image src).Rect = ⟨0, 0, (src.bounds.dx : Int), (src.bounds.dy : Int)⟩ := by
  unfold NewRGB565Image
  have h := foldl_shape
    (fun img i =>
      (List.range src.bounds.dx).foldl
        (fun img j =>
          img.Set (j : Int) (i : Int)
            (src.At (src.bounds.minX + (j : Int)) (src.bounds.minY + (i : Int))))
        img)
    (fun p i => foldl_shape _ (fun p j => Set_shape p _ _ _) _ p)
    (List.range src.bounds.dy)
    ⟨List.replicate (src.bounds.dx * src.bounds.dy * 2) 0, (src.bounds.dx : Int) * 2,
      ⟨0, 0, (src.bounds.dx : Int), (src.bounds.dy : Int)⟩⟩
  refine ⟨h.1.trans ?_, h.2.1, h.2.2⟩
  simp

theorem listCopyAt_append (A Z S : List Nat) (off : Nat) (hA : A.length = off)
    (hS : S.length ≤ Z.length) :
    listCopyAt (A ++ Z) off S = A ++ S ++ Z.drop S.length := by
  subst hA
  unfold listCopyAt
  rw [List.take_left]
  have h1 : (A ++ Z).length - A.length = Z.length := by simp
  rw [h1, List.take_of_length_le hS]
  have h2 : (A ++ Z).drop (A.length + S.length) = Z.drop S.length := by
    rw [← List.drop_drop, List.drop_left]
  rw [h2]

theorem copyFold (P : List Nat) (dxb : Nat) :
    ∀ (k h : Nat), k ≤ h → P.length = h * dxb →
      (List.range k).foldl
        (fun data i => listCopyAt data (i * dxb) ((P.drop (i * dxb)).take dxb))
        (List.replicate (h * dxb) 0)
      = P.take (k * dxb) ++ List.replicate ((h - k) * dxb) 0 := by
  intro k
  induction k with
  | zero => intro h _ hP; simp
  | succ k ih =>
      intro h hk hP
      rw [List.range_succ, List.foldl_append]
      simp only [List.foldl_cons, List.foldl_nil]
      rw [ih h (by omega) hP]
      have hmul : (k + 1) * dxb = k * dxb + dxb := by ring
      have hkh : k * dxb + dxb ≤ h * dxb := by
        have := Nat.mul_le_mul_right dxb hk
        rw [hmul] at this
        exact this
      have hlenA : (P.take (k * dxb)).length = k * dxb := by
        rw [List.length_take, hP]
        omega
      have hS : ((P.drop (k * dxb)).take dxb).length = dxb := by
        rw [List.length_take, List.length_drop, hP]
        omega
      have hZ : ((P.drop (k * dxb)).take dxb).length
          ≤ (List.replicate ((h - k) * dxb) 0).length := by
        rw [hS, List.length_replicate]
        have h1k : 1 ≤ h - k := by omega
        calc dxb = 1 * dxb := (Nat.one_mul dxb).symm
        _ ≤ (h - k) * dxb := Nat.mul_le_mul_right dxb h1k
      rw [listCopyAt_append _ _ _ _ hlenA hZ, hS, List.drop_replicate]
      rw [← List.take_add, ← hmul]
      have hsub : (h - k) * dxb - dxb = (h - (k + 1)) * dxb := by
        rw [Nat.sub_mul, Nat.sub_mul, hmul]
        generalize h * dxb = a
        generalize k * dxb = b
        omega
      rw [hsub]

theorem PixRect_eq_Pix (p : ImageRGB565) (w h : Nat)
    (hr : p.Rect = ⟨0, 0, (w : Int), (h : Int)⟩)
    (hs : p.Stride = (w : Int) * 2)
    (hl : p.Pix.length = h * (w * 2)) :
    p.PixRect = p.Pix := by
  have hw : ((w : Int) - 0).toNat = w := by omega
  have hh2 : ((h : Int) - 0).toNat = h := by omega
  have hcast : ∀ i : Nat,
      ((0 + (i : Int) - 0) * ((w : Int) * 2) + (0 - 0) * 2).toNat = i * (w * 2) := by
    intro i
    rw [show ((0 + (i : Int) - 0) * ((w : Int) * 2) + (0 - 0) * 2) = ((i * (w * 2) : Nat) : Int)
      from by push_cast; ring]
    exact Int.toNat_natCast _
  simp only [ImageRGB565.PixRect, ImageRGB565.PixOffset, hr, hs]
  simp only [Rect.dx, Rect.dy, Rect.minX, Rect.minY, Rect.maxX, Rect.maxY]
  simp only [hw, hh2, hcast]
  rw [show w * h * 2 = h * (w * 2) from by ring]
  have hfin := copyFold p.Pix (w * 2) h h (Nat.le_refl h) hl
  rw [hfin]
  rw [Nat.sub_self, Nat.zero_mul, List.replicate_zero, List.append_nil]
  exact List.take_of_length_le (Nat.le_of_eq hl)

/-- C5: encoding any source frame of width W and height H through
NewRGB565Image and PixRect yields exactly W*H*2 bytes; the image's stride is
W*2 and the emitted payload is the pixel buffer verbatim — row-major with no
row padding. -/
theorem c5_payload_size (src : SourceImage) :
    (NewRGB565Image src).PixRect.length = src.bounds.dx * src.bounds.dy * 2 ∧
    (NewRGB565Image src).Stride = (src.bounds.dx : Int) * 2 ∧
    (NewRGB565Image src).PixRect = (NewRGB565Image src).Pix := by
  have hsh := NewRGB565Image_shape src
  have heq : (NewRGB565Image src).PixRect = (NewRGB565Image src).Pix := by
    refine PixRect_eq_Pix _ src.bounds.dx src.bounds.dy hsh.2.2 hsh.2.1 ?_
    rw [hsh.1]; ring
  refine ⟨?_, hsh.2.1, heq⟩
  rw [heq, hsh.1]

theorem getLast?_cons_getD_opt (a : Option String) (F : List (Option String))
    (le : Option String) :
    ((a :: F).getLast?).getD le = (F.getLast?).getD a := by
  cases F with
  | nil => rfl
  | cons b F =>
      rw [List.getLast?_cons_cons]
      cases h : (b :: F).getLast? with
      | none =>
          exact absurd (List.getLast?_eq_none_iff.mp h) (by simp)
      | some x => rfl

theorem agg_fold (rs : List (Option String)) :
    ∀ le hs,
      ((rs.foldl aggregateStep (le, hs)).2 = (hs || rs.any Option.isNone)) ∧
      ((rs.foldl aggregateStep (le, hs)).1
        = ((rs.filter Option.isSome).getLast?).getD le) := by
  induction rs with
  | nil => intro le hs; simp
  | cons r rs ih =>
      intro le hs
      cases r with
      | none =>
          simp only [List.foldl_cons, aggregateStep, List.any_cons, Option.isNone_none,
            Bool.true_or, List.filter_cons, Option.isSome_none, Bool.false_eq_true,
            if_false, cond_false]
          refine ⟨(ih le true).1.trans ?_, (ih le true).2⟩
          cases hs <;> simp
      | some e =>
          simp only [List.foldl_cons, aggregateStep, List.any_cons, Option.isNone_some,
            Bool.false_or, List.filter_cons, Option.isSome_some, cond_true]
          refine ⟨(ih (some e) hs).1, (ih (some e) hs).2.trans ?_⟩
          exact (getLast?_cons_getD_opt (some e) (rs.filter Option.isSome) le).symm

theorem foldl_handlers_map (img : SourceImage) :
    ∀ (hs : List OutputHandler) (acc0 : Option String × Bool),
      hs.foldl (fun acc handler => aggregateStep acc (handler img)) acc0
      = (hs.map (fun h => h img)).foldl aggregateStep acc0
  | [], _ => rfl
  | h :: hs, acc0 => by
      simp only [List.foldl_cons, List.map_cons]
      exact foldl_handlers_map img hs _

/-- C6: Output applies every registered sink to the frame, in order; it
returns nil whenever at least one sink returned nil; when every sink failed
it returns the error of the last (failing) sink; and it returns a non-nil
error only when every sink failed. -/
theorem c6_output_aggregation (om : OutputManager) (img : SourceImage) :
    ((none : Option String) ∈ om.handlers.map (fun h => h img) →
      om.Output img = none) ∧
    ((∀ r ∈ om.handlers.map (fun h => h img), r ≠ none) →
      om.Output img = ((om.handlers.map (fun h => h img)).getLast?).getD none) ∧
    (om.Output img ≠ none → ∀ r ∈ om.handlers.map (fun h => h img), r ≠ none) := by
  have hout : om.Output img =
      (if ¬ ((om.handlers.map (fun h => h img)).foldl aggregateStep (none, false)).2
          ∧ ((om.handlers.map (fun h => h img)).foldl aggregateStep (none, false)).1 ≠ none
       then ((om.handlers.map (fun h => h img)).foldl aggregateStep (none, false)).1
       else none) := by
    simp only [OutputManager.Output]
    rw [foldl_handlers_map img om.handlers]
  have hfold := agg_fold (om.handlers.map (fun h => h img)) none false
  have hG1 : (none : Option String) ∈ om.handlers.map (fun h => h img) →
      om.Output img = none := by
    intro hmem
    rw [hout]
    have hany : (om.handlers.map (fun h => h img)).any Option.isNone = true := by
      rw [List.any_eq_true]
      exact ⟨none, hmem, rfl⟩
    simp only [hfold.1, Bool.false_or, hany]
    simp
  refine ⟨hG1, ?_, ?_⟩
  · intro hall
    rw [hout]
    have hfilt : (om.handlers.map (fun h => h img)).filter Option.isSome
        = om.handlers.map (fun h => h img) := by
      rw [List.filter_eq_self]
      intro r hr
      cases r with
      | none => exact absurd rfl (hall none hr)
      | some e => rfl
    have hany : (om.handlers.map (fun h => h img)).any Option.isNone = false := by
      rw [List.any_eq_false]
      intro r hr
      cases r with
      | none => exact absurd rfl (hall none hr)
      | some e => simp
    simp only [hfold.1, hfold.2, hfilt, Bool.false_or, hany]
    cases hlast : ((om.handlers.map (fun h => h img)).getLast?).getD none with
    | none => simp
    | some e => simp
  · intro hne r hr
    intro hrn
    subst hrn
    exact hne (hG1 hr)

/-- C10: with zero registered sinks Output reports success (nil) for every
frame, even though no sink succeeded. -/
theorem c10_empty_manager_output (om : OutputManager) (img : SourceImage)
    (hempty : om.handlers = []) :
    om.Output img = none := by
  obtain ⟨hs⟩ := om
  cases hempty
  rfl

theorem c10_empty_manager_output_witness :
    NewOutputManager.handlers = [] ∧
    NewOutputManager.Output ⟨⟨0, 0, 0, 0⟩, fun _ _ => Color.rgba 0 0 0 0⟩ = none :=
  ⟨rfl, c10_empty_manager_output NewOutputManager
    ⟨⟨0, 0, 0, 0⟩, fun _ _ => Color.rgba 0 0 0 0⟩ rfl⟩

theorem constructWarnTimes_bound :
    ∀ (attempts : List (Nat × ConnectOutcome)) (lastError : Nat),
      (∀ t ∈ constructWarnTimes (runAttempts lastError attempts), lastError + 10 < t) ∧
      List.Pairwise (fun a b => a + 10 < b)
        (constructWarnTimes (runAttempts lastError attempts)) := by
  intro attempts
  induction attempts with
  | nil =>
      intro le
      constructor
      · intro t ht
        simp [runAttempts, constructWarnTimes] at ht
      · simp [runAttempts, constructWarnTimes]
  | cons p rest ih =>
      obtain ⟨t, o⟩ := p
      intro le
      cases o with
      | ok =>
          simp only [runAttempts, tryConnectStep, List.nil_append]
          exact ih le
      | testFail =>
          simp only [runAttempts, tryConnectStep, List.singleton_append,
            constructWarnTimes, List.filter_cons, isTestFailedWarn, isNotAvailableWarn]
          exact ih le
      | newFail =>
          by_cases hc : 10 < t - le
          · have hlt : le + 10 < t := by omega
            have iht := ih t
            have hcw : constructWarnTimes (runAttempts le ((t, ConnectOutcome.newFail) :: rest))
                = t :: constructWarnTimes (runAttempts t rest) := by
              simp only [runAttempts, tryConnectStep, if_pos hc, List.singleton_append,
                constructWarnTimes, List.filter_cons, isNotAvailableWarn, List.map_cons]
              simp
            rw [hcw]
            constructor
            · intro x hx
              rcases List.mem_cons.mp hx with hx | hx
              · omega
              · have := iht.1 x hx
                omega
            · refine List.Pairwise.cons ?_ iht.2
              intro x hx
              have := iht.1 x hx
              omega
          · have hcw : constructWarnTimes (runAttempts le ((t, ConnectOutcome.newFail) :: rest))
                = constructWarnTimes (runAttempts le rest) := by
              simp only [runAttempts, tryConnectStep, if_neg hc, List.nil_append]
            rw [hcw]
            exact ih le

theorem testFailed_warn_count :
    ∀ (attempts : List (Nat × ConnectOutcome)) (lastError : Nat),
      ((runAttempts lastError attempts).filter isTestFailedWarn).length
      = (attempts.filter isTestFailAttempt).length := by
  intro attempts
  induction attempts with
  | nil => intro le; rfl
  | cons p rest ih =>
      obtain ⟨t, o⟩ := p
      intro le
      cases o with
      | ok =>
          simp only [runAttempts, tryConnectStep, List.nil_append, List.filter_cons,
            isTestFailAttempt]
          exact ih le
      | testFail =>
          simp only [runAttempts, tryConnectStep, List.singleton_append, List.filter_cons,
            isTestFailedWarn, isTestFailAttempt, List.length_cons]
          simp only [if_pos trivial, List.length_cons]
          rw [ih le]
      | newFail =>
          by_cases hc : 10 < t - le
          · simp only [runAttempts, tryConnectStep, if_pos hc, List.singleton_append,
              List.filter_cons, isTestFailedWarn, isTestFailAttempt]
            exact ih t
          · simp only [runAttempts, tryConnectStep, if_neg hc, List.nil_append,
              List.filter_cons, isTestFailAttempt]
            exact ih le

/-- C8 (amended): device-construction connect failures are rate-limited —
any two device-not-available warnings are more than 10 seconds apart — while
a brightness-test failure is logged on every occurrence, one warning per
failing attempt. -/
theorem c8_rate_limit_amended :
    (∀ (lastError : Nat) (attempts : List (Nat × ConnectOutcome)),
      List.Pairwise (fun a b => a + 10 < b)
        (constructWarnTimes (runAttempts lastError attempts))) ∧
    (∀ (lastError : Nat) (attempts : List (Nat × ConnectOutcome)),
      ((runAttempts lastError attempts).filter isTestFailedWarn).length
        = (attempts.filter isTestFailAttempt).length) :=
  ⟨fun le attempts => (constructWarnTimes_bound attempts le).2,
   fun le attempts => testFailed_warn_count attempts le⟩

/-- C8 counterexample: two consecutive connect attempts 1 second apart that
both fail the brightness sanity command each emit a warning, so two
connect-failure warnings are emitted within 10 seconds — the claimed
10-second rate limit does not cover the brightness-test failure path. -/
theorem c8_counterexample :
    runAttempts 0 [(100, ConnectOutcome.testFail), (101, ConnectOutcome.testFail)]
      = [(100, WarnKind.testFailed), (101, WarnKind.testFailed)] ∧
    ¬ List.Pairwise (fun a b => a + 10 < b)
        ((runAttempts 0
          [(100, ConnectOutcome.testFail), (101, ConnectOutcome.testFail)]).map Prod.fst) := by
  constructor
  · rfl
  · decide

/-- C9: Close releases exactly the resources recorded as acquired, in
reverse acquisition order, leaves no flag set, and a second Close releases
nothing (idempotent); in particular every partially-failed construction
state cleans up exactly its acquired resources. -/
theorem c9_close_partial_teardown (s : AX206USB) :
    (AX206USB.Close s).2 = (AX206USB.acquired s).reverse ∧
    AX206USB.acquired (AX206USB.Close s).1 = [] ∧
    (AX206USB.Close (AX206USB.Close s).1).2 = [] ∧
    (∀ step : ConnectStep,
      (AX206USB.Close (stateAtFailure step)).2
        = (AX206USB.acquired (stateAtFailure step)).reverse) := by
  obtain ⟨c, d, cf, i⟩ := s
  refine ⟨?_, ?_, ?_, ?_⟩
  · cases c <;> cases d <;> cases cf <;> cases i <;> rfl
  · cases c <;> cases d <;> cases cf <;> cases i <;> rfl
  · cases c <;> cases d <;> cases cf <;> cases i <;> rfl
  · intro step
    cases step <;> rfl

